import Mathlib

/-!
Shallow embedding of the sequence parameter and calibration engine of the
Radboud FUS driving-system software (package fus_ds_package), together with
the timing validator of control_driving_system.py and the linear ramp
synthesizer of igt/igt_ds.py.

Numbers are modelled as rationals (exact arithmetic).  A Python call to
sys.exit after a logged error is modelled as an error outcome paired with
the state of the Sequence object at the moment of the exit, so that the
observable partial state of a failed mutation can be reasoned about.
-/

namespace FusDS

/-- Manufacturer of the active driving system (config Equipment.Manufacturer). -/
inductive Manufact where
  | igt
  | sc
  | other
deriving DecidableEq

/-- The chosen power parameter (config General Power options). -/
inductive PowerOption where
  | globPow
  | amplOpt
  | pressOpt
  | voltOpt
deriving DecidableEq

/-- The chosen focus parameter (config General Focus options). -/
inductive FocusOption where
  | exitPlane
  | midBowl
deriving DecidableEq

/-- Error outcomes: each corresponds to a logger.error followed by sys.exit
(or an unguarded Python runtime fault) in the source. -/
inductive SeqError where
  | validationFailed
  | unsupportedParameter
  | limitExceeded
  | outOfRange
  | focusOutOfRange
  | zeroDivision
deriving DecidableEq

/-- Conversion parameters of a calibrated (driving system, transducer)
combination: the dict Sequence._conv_param of sequence.py. -/
structure ConvParam where
  V2A_a : ℚ
  V2A_b : ℚ
  P2A_a : ℚ
  P2A_b : ℚ
  DF2SF_a : ℚ
  DF2SF_b : ℚ
  F2EQF1_low_lim : ℚ
  F2EQF1_up_lim : ℚ
  F2EQF1_a0 : ℚ
  F2EQF1_a1 : ℚ
  F2EQF1_a2 : ℚ
  F2EQF1_a3 : ℚ
  F2EQF1_a4 : ℚ
  F2EQF1_a5 : ℚ
  F2EQF1_a6 : ℚ
  F2EQF1_a7 : ℚ
  F2EQF2_low_lim : ℚ
  F2EQF2_up_lim : ℚ
  F2EQF2_a0 : ℚ
  F2EQF2_a1 : ℚ
  F2EQF2_a2 : ℚ
  F2EQF2_a3 : ℚ
  F2EQF2_a4 : ℚ
  F2EQF2_a5 : ℚ
  F2EQF2_a6 : ℚ
  F2EQF2_a7 : ℚ
deriving DecidableEq

/-- The mutable state of a Sequence object (class Sequence of sequence.py).
comboCalibrated models the membership test
_ds_tran_combo in _equip_combos.  The pulse train repetition interval and
duration live in _timing_param and may be None (for SC equipment), hence
Option.  maxPressAllowed is passed separately to the functions that read the
config key General / Maximum pressure allowed in free water. -/
structure SeqState where
  manufact : Manufact
  comboCalibrated : Bool
  conv : ConvParam
  chosenPower : PowerOption
  chosenFocus : FocusOption
  globalPower : ℚ
  press : ℚ
  volt : ℚ
  ampl : ℚ
  eqFactor : ℚ
  focusWrtExitPlane : ℚ
  focusWrtMidBowl : ℚ
  nTriggers : ℚ
  transducerMinFoc : ℚ
  transducerMaxFoc : ℚ
  transducerExitPlaneDist : ℚ
  pulseDur : ℚ
  pulseRepInt : ℚ
  pulseRampDur : ℚ
  pulseTrainDur : ℚ
  pulseTrainRepInt : Option ℚ
  pulseTrainRepDur : Option ℚ
deriving DecidableEq

/-- validate_value of sequence.py, for a numeric argument.  The value is a
rational, so the isinstance number check (check_num) always passes and the
isinstance bool check (check_bool) always fails.  Returns true when no
validation message is produced; false models the sys.exit after logging. -/
def validate_value (value : ℚ) (check_num check_pos check_nonzero check_bool : Bool) : Bool :=
  !(check_nonzero && decide (value = 0)) &&
  (check_num || true) &&
  !(check_pos && decide (value < 0)) &&
  !check_bool

/-- The 7th degree polynomial shape shared by both equalization intervals. -/
def eq_poly (a0 a1 a2 a3 a4 a5 a6 a7 f : ℚ) : ℚ :=
  a0 + a1 * f + a2 * f ^ 2 + a3 * f ^ 3 + a4 * f ^ 4 + a5 * f ^ 5 + a6 * f ^ 6 + a7 * f ^ 7

/-- Interval 1 equalization polynomial (coefficients F2EQF1_a0 .. F2EQF1_a7). -/
def eq_poly1 (cp : ConvParam) (f : ℚ) : ℚ :=
  eq_poly cp.F2EQF1_a0 cp.F2EQF1_a1 cp.F2EQF1_a2 cp.F2EQF1_a3 cp.F2EQF1_a4 cp.F2EQF1_a5
    cp.F2EQF1_a6 cp.F2EQF1_a7 f

/-- Interval 2 equalization polynomial (coefficients F2EQF2_a0 .. F2EQF2_a7). -/
def eq_poly2 (cp : ConvParam) (f : ℚ) : ℚ :=
  eq_poly cp.F2EQF2_a0 cp.F2EQF2_a1 cp.F2EQF2_a2 cp.F2EQF2_a3 cp.F2EQF2_a4 cp.F2EQF2_a5
    cp.F2EQF2_a6 cp.F2EQF2_a7 f

/-- Sequence._calc_eq_factor of sequence.py: interval 1 is tried first with
closed bounds, interval 2 in the elif with an open lower bound; a focus in
neither interval logs an error and exits. -/
def calc_eq_factor (s : SeqState) : SeqState × Option SeqError :=
  if s.conv.F2EQF1_low_lim ≤ s.focusWrtExitPlane ∧
      s.focusWrtExitPlane ≤ s.conv.F2EQF1_up_lim then
    ({ s with eqFactor := eq_poly1 s.conv s.focusWrtExitPlane }, none)
  else if s.conv.F2EQF2_low_lim < s.focusWrtExitPlane ∧
      s.focusWrtExitPlane ≤ s.conv.F2EQF2_up_lim then
    ({ s with eqFactor := eq_poly2 s.conv s.focusWrtExitPlane }, none)
  else
    (s, some SeqError.outOfRange)

/-- Sequence._calc_volt of sequence.py: total, with an explicit guard for a
zero V2A_a coefficient. -/
def calc_volt (s : SeqState) : SeqState :=
  if s.conv.V2A_a = 0 then
    { s with volt := 0 }
  else
    { s with volt := (s.ampl - s.conv.V2A_b) / s.conv.V2A_a }

/-- Sequence._calc_press of sequence.py.  The Python division would raise
ZeroDivisionError when P2A_a * eq_factor is zero, modelled as a zeroDivision
error; a recomputed pressure above the configured maximum logs an error and
exits. -/
def calc_press (maxPressAllowed : ℚ) (s : SeqState) : SeqState × Option SeqError :=
  if s.conv.P2A_a * s.eqFactor = 0 then
    (s, some SeqError.zeroDivision)
  else
    let press_pa := (s.ampl - s.conv.P2A_b) / (s.conv.P2A_a * s.eqFactor)
    let press_mpa := press_pa / 1000000
    if press_mpa > maxPressAllowed then
      (s, some SeqError.limitExceeded)
    else
      ({ s with press := press_mpa }, none)

/-- Sequencing helper: run the continuation only when the previous step did
not exit. -/
def seqStep (r : SeqState × Option SeqError) (f : SeqState → SeqState × Option SeqError) :
    SeqState × Option SeqError :=
  match r with
  | (s, none) => f s
  | r => r

/-- Sequence._calc_ampl of sequence.py: A = P2A_a * (press_Pa * eq_factor) +
P2A_b with press_Pa = press * 1e6; an amplitude above 100 (or below 0) is
clamped and pressure and voltage are recomputed from the clamped value. -/
def calc_ampl (maxPressAllowed : ℚ) (s : SeqState) : SeqState × Option SeqError :=
  let press_pa := s.press * 1000000
  let a := s.conv.P2A_a * (press_pa * s.eqFactor) + s.conv.P2A_b
  if a > 100 then
    seqStep (calc_press maxPressAllowed { s with ampl := 100 })
      (fun s2 => (calc_volt s2, none))
  else if a < 0 then
    seqStep (calc_press maxPressAllowed { s with ampl := 0 })
      (fun s2 => (calc_volt s2, none))
  else
    ({ s with ampl := a }, none)

/-- Sequence._calc_ampl_using_volt of sequence.py: A = V2A_a * V + V2A_b. -/
def calc_ampl_using_volt (s : SeqState) : SeqState :=
  { s with ampl := s.conv.V2A_a * s.volt + s.conv.V2A_b }

/-- The global_power setter of sequence.py.  Amplitude and global power are
zeroed first; for an SC driving system the value is validated and stored;
for any other manufacturer a strictly positive request logs an error and
exits, while a non-positive request silently leaves the zeroed fields. -/
def global_power_set (global_power : ℚ) (s : SeqState) : SeqState × Option SeqError :=
  let s0 := { s with ampl := 0, globalPower := 0 }
  if s0.manufact = Manufact.sc then
    if validate_value global_power true true false false then
      ({ s0 with globalPower := global_power, chosenPower := PowerOption.globPow }, none)
    else
      (s0, some SeqError.validationFailed)
  else
    if global_power > 0 then
      (s0, some SeqError.unsupportedParameter)
    else
      (s0, none)

/-- The press setter of sequence.py.  Global power and pressure are zeroed
first; without a calibrated combination the setter logs an error and exits;
a validated request above the configured maximum exits before any
conversion; otherwise the pressure is stored and amplitude and voltage are
recomputed. -/
def press_set (maxPressAllowed : ℚ) (press : ℚ) (s : SeqState) : SeqState × Option SeqError :=
  let s0 := { s with globalPower := 0, press := 0 }
  if s0.comboCalibrated then
    if validate_value press true true false false then
      if press > maxPressAllowed then
        (s0, some SeqError.limitExceeded)
      else
        let s1 := { s0 with press := press, chosenPower := PowerOption.pressOpt }
        seqStep (calc_ampl maxPressAllowed s1) (fun s2 => (calc_volt s2, none))
    else
      (s0, some SeqError.validationFailed)
  else
    (s0, some SeqError.unsupportedParameter)

/-- The common tail of both focus setters of sequence.py: when the
combination is calibrated, recompute the equalization factor, the amplitude
and the voltage in this order. -/
def focus_post_update (maxPressAllowed : ℚ) (s : SeqState) : SeqState × Option SeqError :=
  if s.comboCalibrated then
    seqStep (calc_eq_factor s) (fun s1 =>
      seqStep (calc_ampl maxPressAllowed s1) (fun s2 => (calc_volt s2, none)))
  else
    (s, none)

/-- The focus_wrt_exit_plane setter of sequence.py.  For an uncalibrated
combination the focus is range checked against the transducer bounds (exit
on violation) and the bowl focus is derived from the exit plane distance;
for a calibrated one the bowl focus is DF2SF_a * focus + DF2SF_b.  Both
paths then run the calibrated recomputation tail. -/
def focus_wrt_exit_plane_set (maxPressAllowed : ℚ) (focus : ℚ) (s : SeqState) :
    SeqState × Option SeqError :=
  if validate_value focus true true false false then
    if s.comboCalibrated then
      focus_post_update maxPressAllowed
        { s with focusWrtMidBowl := s.conv.DF2SF_a * focus + s.conv.DF2SF_b,
                 chosenFocus := FocusOption.exitPlane, focusWrtExitPlane := focus }
    else
      if focus < s.transducerMinFoc ∨ focus > s.transducerMaxFoc then
        (s, some SeqError.focusOutOfRange)
      else
        focus_post_update maxPressAllowed
          { s with focusWrtMidBowl := focus + s.transducerExitPlaneDist,
                   chosenFocus := FocusOption.exitPlane, focusWrtExitPlane := focus }
  else
    (s, some SeqError.validationFailed)

/-- The focus_wrt_mid_bowl setter of sequence.py.  For a calibrated
combination with a nonzero DF2SF_a the exit plane focus is
(focus - DF2SF_b) / DF2SF_a; otherwise the exit plane focus is derived from
the exit plane distance and range checked after it has already been stored
(the exit fires with the new exit plane focus in place).  Both paths then
run the calibrated recomputation tail. -/
def focus_wrt_mid_bowl_set (maxPressAllowed : ℚ) (focus : ℚ) (s : SeqState) :
    SeqState × Option SeqError :=
  if validate_value focus true true false false then
    if s.comboCalibrated = true ∧ s.conv.DF2SF_a ≠ 0 then
      focus_post_update maxPressAllowed
        { s with focusWrtExitPlane := (focus - s.conv.DF2SF_b) / s.conv.DF2SF_a,
                 chosenFocus := FocusOption.midBowl, focusWrtMidBowl := focus }
    else
      let fep := focus - s.transducerExitPlaneDist
      if fep < s.transducerMinFoc ∨ fep > s.transducerMaxFoc then
        ({ s with focusWrtExitPlane := fep }, some SeqError.focusOutOfRange)
      else
        focus_post_update maxPressAllowed
          { s with focusWrtExitPlane := fep,
                   chosenFocus := FocusOption.midBowl, focusWrtMidBowl := focus }
  else
    (s, some SeqError.validationFailed)

/-- The pulse_dur setter of sequence.py. -/
def pulse_dur_set (pulse_dur : ℚ) (s : SeqState) : SeqState × Option SeqError :=
  if validate_value pulse_dur true true true false then
    ({ s with pulseDur := pulse_dur }, none)
  else
    (s, some SeqError.validationFailed)

/-- The pulse_rep_int setter of sequence.py. -/
def pulse_rep_int_set (pulse_rep_int : ℚ) (s : SeqState) : SeqState × Option SeqError :=
  if validate_value pulse_rep_int true true true false then
    ({ s with pulseRepInt := pulse_rep_int }, none)
  else
    (s, some SeqError.validationFailed)

/-- The pulse_ramp_dur setter of sequence.py. -/
def pulse_ramp_dur_set (pulse_ramp_dur : ℚ) (s : SeqState) : SeqState × Option SeqError :=
  if validate_value pulse_ramp_dur true true false false then
    ({ s with pulseRampDur := pulse_ramp_dur }, none)
  else
    (s, some SeqError.validationFailed)

/-- The pulse_train_dur setter of sequence.py: SC equipment has no pulse
train repetition notion, so both repetition parameters are set to None. -/
def pulse_train_dur_set (pulse_train_dur : ℚ) (s : SeqState) : SeqState × Option SeqError :=
  if validate_value pulse_train_dur true true true false then
    let s1 := { s with pulseTrainDur := pulse_train_dur }
    if s1.manufact = Manufact.sc then
      ({ s1 with pulseTrainRepInt := none, pulseTrainRepDur := none }, none)
    else
      (s1, none)
  else
    (s, some SeqError.validationFailed)

/-- The pulse_train_rep_int setter of sequence.py: stores the validated
value unchanged. -/
def pulse_train_rep_int_set (pulse_train_rep_int : ℚ) (s : SeqState) :
    SeqState × Option SeqError :=
  if validate_value pulse_train_rep_int true true true false then
    ({ s with pulseTrainRepInt := some pulse_train_rep_int }, none)
  else
    (s, some SeqError.validationFailed)

/-- The pulse_train_rep_dur setter of sequence.py: the validated value is
multiplied by 1e3 (treated as seconds, stored as milliseconds) before
storage. -/
def pulse_train_rep_dur_set (pulse_train_rep_dur : ℚ) (s : SeqState) :
    SeqState × Option SeqError :=
  if validate_value pulse_train_rep_dur true true true false then
    ({ s with pulseTrainRepDur := some (pulse_train_rep_dur * 1000) }, none)
  else
    (s, some SeqError.validationFailed)

/-- The n_triggers setter of sequence.py: stores the validated trigger count
and then assigns the current pulse train duration through the
pulse_train_rep_int and pulse_train_rep_dur property setters. -/
def n_triggers_set (n_triggers : ℚ) (s : SeqState) : SeqState × Option SeqError :=
  if validate_value n_triggers true true true false then
    let s1 := { s with nTriggers := n_triggers }
    seqStep (pulse_train_rep_int_set s1.pulseTrainDur s1) (fun s2 =>
      pulse_train_rep_dur_set s2.pulseTrainDur s2)
  else
    (s, some SeqError.validationFailed)

/-- Tags identifying the six base rules of
ControlDrivingSystem.validate_sequence, in the order the code checks them.
Each tag stands for the human readable message appended for that rule. -/
inductive ValidationTag where
  | pulseCountNotWhole
  | pulseTrainCountNotWhole
  | pulseDurAbovePulseRepInt
  | pulseRepIntAbovePulseTrainDur
  | pulseTrainDurAbovePulseTrainRepInt
  | pulseTrainRepIntAbovePulseTrainRepDur
deriving DecidableEq

/-- A rational is a whole number exactly when its reduced denominator is 1
(models float.is_integer on an exact quotient). -/
def isWholeNumber (q : ℚ) : Bool := q.den == 1

/-- ControlDrivingSystem.validate_sequence of control_driving_system.py: the
six base checks run in order, each failed check appending its message to the
accumulated list.  The two Python divisions fault when a divisor is zero or
a pulse train repetition parameter is None; those runs return none. -/
def validate_sequence (s : SeqState) : Option (List ValidationTag) :=
  if s.pulseRepInt = 0 then
    none
  else
    match s.pulseTrainRepInt, s.pulseTrainRepDur with
    | some rep_int, some rep_dur =>
      if rep_int = 0 then
        none
      else
        let l1 := if !isWholeNumber (s.pulseTrainDur / s.pulseRepInt) then
            [ValidationTag.pulseCountNotWhole] else []
        let l2 := if !isWholeNumber (rep_dur / rep_int) then
            l1 ++ [ValidationTag.pulseTrainCountNotWhole] else l1
        let l3 := if s.pulseDur > s.pulseRepInt then
            l2 ++ [ValidationTag.pulseDurAbovePulseRepInt] else l2
        let l4 := if s.pulseRepInt > s.pulseTrainDur then
            l3 ++ [ValidationTag.pulseRepIntAbovePulseTrainDur] else l3
        let l5 := if s.pulseTrainDur > rep_int then
            l4 ++ [ValidationTag.pulseTrainDurAbovePulseTrainRepInt] else l4
        let l6 := if rep_int > rep_dur then
            l5 ++ [ValidationTag.pulseTrainRepIntAbovePulseTrainRepDur] else l5
        some l6
    | _, _ => none

/-- Whether one of the six base rules is violated, written from the words of
the specification (section 4.4), for the refinement comparison with
validate_sequence. -/
def rule_violated (ptd pri pd rep_int rep_dur : ℚ) : ValidationTag → Bool
  | ValidationTag.pulseCountNotWhole => !isWholeNumber (ptd / pri)
  | ValidationTag.pulseTrainCountNotWhole => !isWholeNumber (rep_dur / rep_int)
  | ValidationTag.pulseDurAbovePulseRepInt => decide (pd > pri)
  | ValidationTag.pulseRepIntAbovePulseTrainDur => decide (pri > ptd)
  | ValidationTag.pulseTrainDurAbovePulseTrainRepInt => decide (ptd > rep_int)
  | ValidationTag.pulseTrainRepIntAbovePulseTrainRepDur => decide (rep_int > rep_dur)

/-- The specification side of the timing validator: the violated rules among
the six base rules, in the stated order. -/
def validate_sequence_spec (ptd pri pd rep_int rep_dur : ℚ) : List ValidationTag :=
  [ValidationTag.pulseCountNotWhole, ValidationTag.pulseTrainCountNotWhole,
   ValidationTag.pulseDurAbovePulseRepInt, ValidationTag.pulseRepIntAbovePulseTrainDur,
   ValidationTag.pulseTrainDurAbovePulseTrainRepInt,
   ValidationTag.pulseTrainRepIntAbovePulseTrainRepDur].filter
    (rule_violated ptd pri pd rep_int rep_dur)

/-- The available ramp shapes for pulse modulation (config General Ramp
shapes): linear, Tukey, and the custom sinusoidal (shota) shape. -/
inductive RampShape where
  | linear
  | tukey
  | shota
deriving DecidableEq

/-- np.linspace start stop num: num evenly spaced samples, endpoint
included, as used by every branch of IGT._get_ramping_amplitude. -/
def linspace {α : Type*} [LinearOrderedField α] (start stop : α) (num : ℕ) : List α :=
  (List.range num).map (fun (i : ℕ) => start + (stop - start) * (i : α) / ((num : α) - 1))

/-- IGT._get_ramping_amplitude of igt_ds.py: every branch uses
floor(pulse_ramp_dur / pulse_ramp_temp_res) sample points; linear ramping
is np.linspace 0 1; Tukey ramping evaluates
0.5 * (1 + cos((2 pi / alpha) * (x - alpha / 2))) with alpha = 1 over
x = np.linspace 0 (alpha / 2); the custom sinusoidal (shota) ramping
evaluates 0.5 * (1 + sin(2 pi f x - pi / 2)) with f = 1 / (2 dur_s), dur_s
the ramp duration in seconds, over x = np.linspace 0 dur_s.  The float
trigonometry of the source is modelled over the reals. -/
noncomputable def get_ramping_amplitude (shape : RampShape)
    (pulse_ramp_dur pulse_ramp_temp_res : ℚ) : List ℝ :=
  let n_points := ⌊pulse_ramp_dur / pulse_ramp_temp_res⌋.toNat
  match shape with
  | RampShape.linear =>
    linspace 0 1 n_points
  | RampShape.tukey =>
    let alpha : ℝ := 1
    (linspace 0 (alpha / 2) n_points).map
      (fun x => 0.5 * (1 + Real.cos (2 * Real.pi / alpha * (x - alpha / 2))))
  | RampShape.shota =>
    let pulse_ramp_dur_s : ℝ := (pulse_ramp_dur : ℝ) / 1000
    let f : ℝ := 1 / (2 * pulse_ramp_dur_s)
    (linspace 0 pulse_ramp_dur_s n_points).map
      (fun x => 0.5 * (1 + Real.sin (2 * Real.pi * f * x - Real.pi / 2)))

/-- The resolution selection of IGT._apply_ramping of igt_ds.py: the best
temporal resolution of 0.005 ms is coarsened to pulse_ramp_dur / 1023 when
the implied number of steps exceeds the hardware cap of 1023. -/
def apply_ramping_resolution (pulse_ramp_dur : ℚ) : ℚ :=
  let min_ramp_temp_res : ℚ := 5 / 1000
  if 1023 < ⌊pulse_ramp_dur / min_ramp_temp_res⌋ then
    pulse_ramp_dur / 1023
  else
    min_ramp_temp_res

/-- A conversion parameter record with every coefficient zero, used as the
base of the concrete test states. -/
def baseConv : ConvParam :=
  ⟨0, 0, 0, 0, 0, 0, 0, 0, 0, 0, 0, 0, 0, 0, 0, 0, 0, 0, 0, 0, 0, 0, 0, 0, 0, 0⟩

/-- A concrete base Sequence state used by the concrete test states. -/
def baseState : SeqState where
  manufact := Manufact.igt
  comboCalibrated := false
  conv := baseConv
  chosenPower := PowerOption.amplOpt
  chosenFocus := FocusOption.exitPlane
  globalPower := 0
  press := 0
  volt := 0
  ampl := 0
  eqFactor := 1
  focusWrtExitPlane := 0
  focusWrtMidBowl := 0
  nTriggers := 0
  transducerMinFoc := 0
  transducerMaxFoc := 100
  transducerExitPlaneDist := 10
  pulseDur := 10
  pulseRepInt := 45
  pulseRampDur := 1
  pulseTrainDur := 90
  pulseTrainRepInt := some 90
  pulseTrainRepDur := some 90

/-- Concrete calibrated state whose two equalization intervals share the
boundary 10, with constant polynomial 1 on interval 1 and constant
polynomial 2 on interval 2, and a focus exactly at the shared boundary. -/
def sBoundary : SeqState :=
  { baseState with
      comboCalibrated := true
      conv := { baseConv with
                  F2EQF1_low_lim := 0, F2EQF1_up_lim := 10, F2EQF1_a0 := 1,
                  F2EQF2_low_lim := 10, F2EQF2_up_lim := 20, F2EQF2_a0 := 2 }
      focusWrtExitPlane := 10 }

/-- Concrete calibrated state for the saturation witness: P2A identity in
pascal, equalization factor 1, so one megapascal converts to amplitude 1e6. -/
def sSaturation : SeqState :=
  { baseState with
      comboCalibrated := true
      conv := { baseConv with P2A_a := 1, F2EQF1_up_lim := 100, F2EQF1_a0 := 1 }
      eqFactor := 1 }

/-- Concrete state with a 100 ms pulse train duration, for the trigger-count
setter evaluation. -/
def sTrigger : SeqState := { baseState with pulseTrainDur := 100 }

/-- Concrete calibrated state with a nonzero stored pressure and global
power, for the pressure-limit counterexample. -/
def sPressLimit : SeqState :=
  { baseState with comboCalibrated := true, press := 1, globalPower := 2 }

/-- Concrete state with pulse train duration 90 ms and pulse repetition
interval 45 ms (integral pulse count). -/
def sTimingWhole : SeqState := baseState

/-- Concrete state with pulse train duration 90 ms and pulse repetition
interval 40 ms (pulse count 2.25). -/
def sTimingFrac : SeqState := { baseState with pulseRepInt := 40 }

/-- Concrete calibrated state for the focus round-trip witness: focus map
SF = 2 * f + 1, equalization interval [0, 100] with constant polynomial 1. -/
def sRoundTrip : SeqState :=
  { baseState with
      comboCalibrated := true
      conv := { baseConv with
                  DF2SF_a := 2, DF2SF_b := 1, F2EQF1_up_lim := 100, F2EQF1_a0 := 1 }
      eqFactor := 1 }

/-- Concrete non-SC state for the global-power gating witness. -/
def sNonSC : SeqState := baseState

/-- Concrete state with a nonzero V2A_a coefficient, for the voltage
conversion witness. -/
def sVolt : SeqState :=
  { baseState with ampl := 5, conv := { baseConv with V2A_a := 2, V2A_b := 1 } }

/-- Fields of the Sequence state untouched by the recomputation helpers
(_calc_eq_factor, _calc_ampl, _calc_press, _calc_volt): the focus pair, the
conversion parameters and the calibration flag. -/
def SameFocus (s t : SeqState) : Prop :=
  t.focusWrtExitPlane = s.focusWrtExitPlane ∧
  t.focusWrtMidBowl = s.focusWrtMidBowl ∧
  t.conv = s.conv ∧
  t.comboCalibrated = s.comboCalibrated

theorem sameFocus_refl (s : SeqState) : SameFocus s s := ⟨rfl, rfl, rfl, rfl⟩

theorem sameFocus_trans {s t u : SeqState} (h1 : SameFocus s t) (h2 : SameFocus t u) :
    SameFocus s u :=
  ⟨h2.1.trans h1.1, h2.2.1.trans h1.2.1, h2.2.2.1.trans h1.2.2.1, h2.2.2.2.trans h1.2.2.2⟩

theorem calc_eq_factor_sameFocus (s : SeqState) : SameFocus s (calc_eq_factor s).1 := by
  unfold calc_eq_factor
  split_ifs <;> exact ⟨rfl, rfl, rfl, rfl⟩

theorem calc_volt_sameFocus (s : SeqState) : SameFocus s (calc_volt s) := by
  unfold calc_volt
  split_ifs <;> exact ⟨rfl, rfl, rfl, rfl⟩

theorem calc_volt_ampl (s : SeqState) : (calc_volt s).ampl = s.ampl := by
  unfold calc_volt
  split_ifs <;> rfl

theorem calc_volt_press (s : SeqState) : (calc_volt s).press = s.press := by
  unfold calc_volt
  split_ifs <;> rfl

theorem calc_press_sameFocus (m : ℚ) (s : SeqState) : SameFocus s (calc_press m s).1 := by
  simp only [calc_press]
  split_ifs <;> exact ⟨rfl, rfl, rfl, rfl⟩

theorem seqStep_sameFocus (s : SeqState) (r : SeqState × Option SeqError)
    (f : SeqState → SeqState × Option SeqError)
    (hr : SameFocus s r.1) (hf : ∀ t, SameFocus t (f t).1) :
    SameFocus s (seqStep r f).1 := by
  rcases r with ⟨t, e⟩
  cases e with
  | none => exact sameFocus_trans hr (hf t)
  | some e => exact hr

theorem calc_ampl_sameFocus (m : ℚ) (s : SeqState) : SameFocus s (calc_ampl m s).1 := by
  simp only [calc_ampl]
  split_ifs
  · exact seqStep_sameFocus s _ _
      (sameFocus_trans ⟨rfl, rfl, rfl, rfl⟩ (calc_press_sameFocus m { s with ampl := 100 }))
      (fun t => calc_volt_sameFocus t)
  · exact seqStep_sameFocus s _ _
      (sameFocus_trans ⟨rfl, rfl, rfl, rfl⟩ (calc_press_sameFocus m { s with ampl := 0 }))
      (fun t => calc_volt_sameFocus t)
  · exact ⟨rfl, rfl, rfl, rfl⟩

theorem focus_post_update_sameFocus (m : ℚ) (s : SeqState) :
    SameFocus s (focus_post_update m s).1 := by
  unfold focus_post_update
  split_ifs
  · exact seqStep_sameFocus s _ _ (calc_eq_factor_sameFocus s)
      (fun t => seqStep_sameFocus t _ _ (calc_ampl_sameFocus m t)
        (fun u => calc_volt_sameFocus u))
  · exact sameFocus_refl s

theorem validate_value_pos {x : ℚ} (hx : 0 < x) :
    validate_value x true true true false = true := by
  simp [validate_value, hx.ne.symm, not_lt.mpr hx.le]

theorem validate_value_nonneg {x : ℚ} (hx : 0 ≤ x) :
    validate_value x true true false false = true := by
  simp [validate_value, not_lt.mpr hx]

/-- C9: for every amplitude and coefficient set, the voltage computation of
Sequence._calc_volt is total: a zero V2A_a coefficient yields voltage 0
without entering the division branch, and a nonzero V2A_a yields
(amplitude - V2A_b) / V2A_a. -/
theorem calc_volt_total (s : SeqState) :
    (s.conv.V2A_a = 0 → (calc_volt s).volt = 0) ∧
    (s.conv.V2A_a ≠ 0 → (calc_volt s).volt = (s.ampl - s.conv.V2A_b) / s.conv.V2A_a) := by
  constructor
  · intro h
    simp [calc_volt, h]
  · intro h
    simp [calc_volt, h]

theorem calc_volt_total_witness :
    sVolt.conv.V2A_a ≠ 0 ∧ (calc_volt sVolt).volt = (sVolt.ampl - sVolt.conv.V2A_b) / sVolt.conv.V2A_a :=
  ⟨by decide, (calc_volt_total sVolt).2 (by decide)⟩

/-- C8: on a Sequence whose driving system manufacturer is not SC, the
global_power setter exits with the unsupported-parameter error exactly when
the requested value is strictly positive; a request of 0 (or below) never
raises. -/
theorem global_power_gating (s : SeqState) (gp : ℚ) (h : s.manufact ≠ Manufact.sc) :
    (global_power_set gp s).2 =
      if gp > 0 then some SeqError.unsupportedParameter else none := by
  simp only [global_power_set]
  rw [if_neg h]
  split_ifs <;> rfl

theorem global_power_gating_witness :
    sNonSC.manufact ≠ Manufact.sc ∧
    (global_power_set 5 sNonSC).2 = some SeqError.unsupportedParameter ∧
    (global_power_set 0 sNonSC).2 = none := by
  refine ⟨by decide, ?_, ?_⟩
  · rw [global_power_gating sNonSC 5 (by decide)]
    decide
  · rw [global_power_gating sNonSC 0 (by decide)]
    decide

/-- C10: for every positive value, the pulse_train_rep_dur setter stores the
value multiplied by 1e3 (seconds converted to milliseconds), so an immediate
read returns 1000 times the set value, while every other timing setter
(pulse_train_rep_int, pulse_dur, pulse_rep_int, pulse_ramp_dur,
pulse_train_dur) stores its value unchanged. -/
theorem pulse_train_rep_dur_stores_milliseconds (s : SeqState) (x : ℚ) (hx : 0 < x) :
    (pulse_train_rep_dur_set x s).1.pulseTrainRepDur = some (x * 1000) ∧
    (pulse_train_rep_int_set x s).1.pulseTrainRepInt = some x ∧
    (pulse_dur_set x s).1.pulseDur = x ∧
    (pulse_rep_int_set x s).1.pulseRepInt = x ∧
    (pulse_ramp_dur_set x s).1.pulseRampDur = x ∧
    (pulse_train_dur_set x s).1.pulseTrainDur = x := by
  have hv := validate_value_pos hx
  have hv2 := validate_value_nonneg hx.le
  refine ⟨?_, ?_, ?_, ?_, ?_, ?_⟩
  · simp [pulse_train_rep_dur_set, hv]
  · simp [pulse_train_rep_int_set, hv]
  · simp [pulse_dur_set, hv]
  · simp [pulse_rep_int_set, hv]
  · simp [pulse_ramp_dur_set, hv2]
  · simp only [pulse_train_dur_set, hv, if_true]
    split_ifs <;> rfl

theorem pulse_train_rep_dur_stores_milliseconds_witness :
    (pulse_train_rep_dur_set 2 baseState).1.pulseTrainRepDur = some (2 * 1000) ∧
    (pulse_train_rep_int_set 2 baseState).1.pulseTrainRepInt = some 2 ∧
    (pulse_dur_set 2 baseState).1.pulseDur = 2 ∧
    (pulse_rep_int_set 2 baseState).1.pulseRepInt = 2 ∧
    (pulse_ramp_dur_set 2 baseState).1.pulseRampDur = 2 ∧
    (pulse_train_dur_set 2 baseState).1.pulseTrainDur = 2 :=
  pulse_train_rep_dur_stores_milliseconds baseState 2 (by decide)

/-- C3 (code evaluation): after a successful set of the trigger count on a
Sequence with a 100 ms pulse train duration, the stored pulse train
repetition interval equals the pulse train duration but the stored pulse
train repetition duration equals 1000 times the pulse train duration, not
the pulse train duration itself. -/
theorem n_triggers_rep_dur_mismatch :
    (n_triggers_set 2 sTrigger).2 = none ∧
    (n_triggers_set 2 sTrigger).1.pulseTrainDur = 100 ∧
    (n_triggers_set 2 sTrigger).1.pulseTrainRepInt = some 100 ∧
    (n_triggers_set 2 sTrigger).1.pulseTrainRepDur = some 100000 ∧
    (n_triggers_set 2 sTrigger).1.pulseTrainRepDur ≠
      some ((n_triggers_set 2 sTrigger).1.pulseTrainDur) := by
  have hdur : (n_triggers_set 2 sTrigger).1.pulseTrainRepDur = some ((100 : ℚ) * 1000) := rfl
  have hmul : ((100 : ℚ) * 1000) = 100000 := by norm_num
  refine ⟨rfl, rfl, rfl, ?_, ?_⟩
  · rw [hdur, hmul]
  · rw [hdur, hmul, show (n_triggers_set 2 sTrigger).1.pulseTrainDur = 100 from rfl]
    norm_num

/-- C1 (counterexample): in a calibrated state whose two equalization
intervals share the boundary focus 10 and whose interval polynomials differ
there, the factor computed at the shared boundary is the interval 1
polynomial value, not the interval 2 polynomial value, refuting the claim
that the shared boundary resolves with interval 2. -/
theorem calc_eq_factor_boundary_counterexample :
    sBoundary.conv.F2EQF1_up_lim = sBoundary.conv.F2EQF2_low_lim ∧
    sBoundary.focusWrtExitPlane = sBoundary.conv.F2EQF1_up_lim ∧
    (calc_eq_factor sBoundary).2 = none ∧
    (calc_eq_factor sBoundary).1.eqFactor = eq_poly1 sBoundary.conv sBoundary.focusWrtExitPlane ∧
    (calc_eq_factor sBoundary).1.eqFactor ≠ eq_poly2 sBoundary.conv sBoundary.focusWrtExitPlane := by
  have h1 : eq_poly1 sBoundary.conv sBoundary.focusWrtExitPlane = 1 := by
    norm_num [sBoundary, baseState, baseConv, eq_poly1, eq_poly]
  have h2 : eq_poly2 sBoundary.conv sBoundary.focusWrtExitPlane = 2 := by
    norm_num [sBoundary, baseState, baseConv, eq_poly2, eq_poly]
  refine ⟨rfl, rfl, rfl, rfl, ?_⟩
  rw [show (calc_eq_factor sBoundary).1.eqFactor =
    eq_poly1 sBoundary.conv sBoundary.focusWrtExitPlane from rfl, h1, h2]
  norm_num

/-- C1 (amended): Sequence._calc_eq_factor selects interval 1 exactly on
F2EQF1_low_lim <= focus <= F2EQF1_up_lim; when the two intervals share
their boundary, interval 2 is selected exactly on
F2EQF2_low_lim < focus <= F2EQF2_up_lim; a focus in neither interval is an
out-of-range error; and a focus exactly at the shared boundary (inside
interval 1) is computed with the interval 1 polynomial, never interval 2. -/
theorem calc_eq_factor_selection (s : SeqState) :
    (s.conv.F2EQF1_low_lim ≤ s.focusWrtExitPlane ∧
        s.focusWrtExitPlane ≤ s.conv.F2EQF1_up_lim →
      calc_eq_factor s = ({ s with eqFactor := eq_poly1 s.conv s.focusWrtExitPlane }, none)) ∧
    (s.conv.F2EQF1_up_lim = s.conv.F2EQF2_low_lim →
      s.conv.F2EQF2_low_lim < s.focusWrtExitPlane →
      s.focusWrtExitPlane ≤ s.conv.F2EQF2_up_lim →
      calc_eq_factor s = ({ s with eqFactor := eq_poly2 s.conv s.focusWrtExitPlane }, none)) ∧
    (¬(s.conv.F2EQF1_low_lim ≤ s.focusWrtExitPlane ∧
        s.focusWrtExitPlane ≤ s.conv.F2EQF1_up_lim) →
      ¬(s.conv.F2EQF2_low_lim < s.focusWrtExitPlane ∧
        s.focusWrtExitPlane ≤ s.conv.F2EQF2_up_lim) →
      calc_eq_factor s = (s, some SeqError.outOfRange)) ∧
    (s.conv.F2EQF1_up_lim = s.conv.F2EQF2_low_lim →
      s.focusWrtExitPlane = s.conv.F2EQF1_up_lim →
      s.conv.F2EQF1_low_lim ≤ s.focusWrtExitPlane →
      calc_eq_factor s = ({ s with eqFactor := eq_poly1 s.conv s.focusWrtExitPlane }, none)) := by
  refine ⟨?_, ?_, ?_, ?_⟩
  · intro h
    rw [calc_eq_factor, if_pos h]
  · intro hb h2l h2u
    have hn1 : ¬(s.conv.F2EQF1_low_lim ≤ s.focusWrtExitPlane ∧
        s.focusWrtExitPlane ≤ s.conv.F2EQF1_up_lim) := by
      rintro ⟨-, hu⟩
      rw [hb] at hu
      exact absurd h2l (not_lt.mpr hu)
    rw [calc_eq_factor, if_neg hn1, if_pos ⟨h2l, h2u⟩]
  · intro h1 h2
    rw [calc_eq_factor, if_neg h1, if_neg h2]
  · intro hb hf hl
    rw [calc_eq_factor, if_pos ⟨hl, le_of_eq hf⟩]

theorem calc_eq_factor_selection_witness :
    calc_eq_factor sBoundary =
      ({ sBoundary with eqFactor := eq_poly1 sBoundary.conv sBoundary.focusWrtExitPlane }, none) :=
  (calc_eq_factor_selection sBoundary).2.2.2 (by decide) (by decide) (by decide)

theorem validate_sequence_eq_spec (s : SeqState) (rep_int rep_dur : ℚ)
    (h1 : s.pulseTrainRepInt = some rep_int) (h2 : s.pulseTrainRepDur = some rep_dur)
    (h3 : s.pulseRepInt ≠ 0) (h4 : rep_int ≠ 0) :
    validate_sequence s =
      some (validate_sequence_spec s.pulseTrainDur s.pulseRepInt s.pulseDur rep_int rep_dur) := by
  unfold validate_sequence
  rw [if_neg h3, h1, h2]
  dsimp only
  rw [if_neg h4]
  by_cases c1 : isWholeNumber (s.pulseTrainDur / s.pulseRepInt) = true <;>
  by_cases c2 : isWholeNumber (rep_dur / rep_int) = true <;>
  by_cases c3 : s.pulseDur > s.pulseRepInt <;>
  by_cases c4 : s.pulseRepInt > s.pulseTrainDur <;>
  by_cases c5 : s.pulseTrainDur > rep_int <;>
  by_cases c6 : rep_int > rep_dur <;>
  simp [validate_sequence_spec, rule_violated, c1, c2, c3, c4, c5, c6]

theorem whole_two : isWholeNumber (2 : ℚ) = true := by
  simp [isWholeNumber]

theorem whole_one : isWholeNumber (1 : ℚ) = true := by
  simp [isWholeNumber]

theorem not_whole_nine_fourths : isWholeNumber ((9 : ℚ) / 4) = false := by
  have h : ((9 : ℚ) / 4) = ((9 : ℤ) : ℚ) / ((4 : ℤ) : ℚ) := by norm_num
  rw [h]
  simp only [isWholeNumber, beq_eq_false_iff_ne, Ne]
  rw [Rat.den_div_intCast_eq_one_iff 9 4 (by norm_num)]
  decide

/-- C5: the six base checks of ControlDrivingSystem.validate_sequence are
evaluated in the stated order, every failed check appending its message to
the one returned list; in particular a sequence with pulse train duration
90 ms and pulse repetition interval 45 ms reports no rule 1 violation
(pulse count 2), and one with pulse repetition interval 40 ms reports a
rule 1 violation (pulse count 2.25). -/
theorem validate_sequence_refines :
    (∀ (s : SeqState) (rep_int rep_dur : ℚ),
      s.pulseTrainRepInt = some rep_int → s.pulseTrainRepDur = some rep_dur →
      s.pulseRepInt ≠ 0 → rep_int ≠ 0 →
      validate_sequence s =
        some (validate_sequence_spec s.pulseTrainDur s.pulseRepInt s.pulseDur rep_int rep_dur)) ∧
    validate_sequence sTimingWhole = some [] ∧
    ValidationTag.pulseCountNotWhole ∈ (validate_sequence sTimingFrac).getD [] := by
  have key := validate_sequence_eq_spec
  refine ⟨key, ?_, ?_⟩
  · have h := key sTimingWhole 90 90 rfl rfl (by norm_num [sTimingWhole, baseState]) (by norm_num)
    rw [h, show sTimingWhole.pulseTrainDur = 90 from rfl,
      show sTimingWhole.pulseRepInt = 45 from rfl, show sTimingWhole.pulseDur = 10 from rfl]
    norm_num [validate_sequence_spec, rule_violated, whole_two, whole_one]
  · have h := key sTimingFrac 90 90 rfl rfl (by norm_num [sTimingFrac, baseState]) (by norm_num)
    rw [h, show sTimingFrac.pulseTrainDur = 90 from rfl,
      show sTimingFrac.pulseRepInt = 40 from rfl, show sTimingFrac.pulseDur = 10 from rfl]
    norm_num [validate_sequence_spec, rule_violated, not_whole_nine_fourths, whole_one]

theorem validate_sequence_refines_witness :
    validate_sequence sTimingFrac =
      some (validate_sequence_spec sTimingFrac.pulseTrainDur sTimingFrac.pulseRepInt
        sTimingFrac.pulseDur 90 90) :=
  validate_sequence_refines.1 sTimingFrac 90 90 rfl rfl
    (by norm_num [sTimingFrac, baseState]) (by norm_num)

theorem linspace_length {α : Type*} [LinearOrderedField α] (a b : α) (n : ℕ) :
    (linspace a b n).length = n := by
  unfold linspace
  rw [List.length_map, List.length_range]

theorem linspace_zero_one_get {α : Type*} [LinearOrderedField α] (n : ℕ)
    (i : Fin (linspace (0 : α) 1 n).length) :
    (linspace (0 : α) 1 n).get i = (i.1 : α) / ((n : α) - 1) := by
  rcases i with ⟨i, hi⟩
  unfold linspace at hi ⊢
  simp only [List.get_eq_getElem, List.getElem_map, List.getElem_range]
  ring

theorem linspace_zero_one_eq {α : Type*} [LinearOrderedField α] (n : ℕ) :
    linspace (0 : α) 1 n = (List.range n).map (fun (i : ℕ) => (i : α) / ((n : α) - 1)) := by
  unfold linspace
  apply List.map_congr_left
  intro i hi
  ring

theorem linspace_zero_one_mem {α : Type*} [LinearOrderedField α] (n : ℕ) (y : α)
    (hy : y ∈ linspace (0 : α) 1 n) : 0 ≤ y ∧ y ≤ 1 := by
  rw [linspace_zero_one_eq] at hy
  obtain ⟨i, him, rfl⟩ := List.mem_map.mp hy
  have hi : i < n := List.mem_range.mp him
  have hn1 : 1 ≤ n := by omega
  rcases eq_or_lt_of_le hn1 with hn | hn
  · have hi0 : i = 0 := by omega
    subst hi0
    rw [← hn]
    norm_num
  · have hc : (0 : α) < (n : α) - 1 := by
      have h2 : (2 : α) ≤ (n : α) := by exact_mod_cast hn
      linarith
    constructor
    · exact div_nonneg (Nat.cast_nonneg i) hc.le
    · rw [div_le_one hc]
      have hcast : (i : α) + 1 ≤ (n : α) := by exact_mod_cast hi
      linarith

theorem linspace_zero_one_sorted {α : Type*} [LinearOrderedField α] (n : ℕ) :
    (linspace (0 : α) 1 n).Sorted (· ≤ ·) := by
  rw [List.Sorted, List.pairwise_iff_get]
  rintro ⟨i, hi⟩ ⟨j, hj⟩ hij
  rw [linspace_zero_one_get, linspace_zero_one_get]
  have hij2 : i < j := hij
  have hjn : j < n := by
    have h := hj
    rw [linspace_length] at h
    exact h
  dsimp only
  have hn : 2 ≤ n := by omega
  have hc : (0 : α) < (n : α) - 1 := by
    have h2 : (2 : α) ≤ (n : α) := by exact_mod_cast hn
    linarith
  have hab : (i : α) ≤ (j : α) := by exact_mod_cast hij2.le
  gcongr

theorem linspace_zero_one_spacing {α : Type*} [LinearOrderedField α] (n : ℕ) (i : ℕ)
    (h1 : i < (linspace (0 : α) 1 n).length) (h2 : i + 1 < (linspace (0 : α) 1 n).length) :
    (linspace (0 : α) 1 n).get ⟨i + 1, h2⟩ - (linspace (0 : α) 1 n).get ⟨i, h1⟩ =
      1 / ((n : α) - 1) := by
  rw [linspace_zero_one_get, linspace_zero_one_get]
  dsimp only
  rw [div_sub_div_same]
  congr 1
  push_cast
  ring

theorem linspace_map_get (c : ℝ) (g : ℝ → ℝ) (n : ℕ)
    (i : Fin ((linspace (0 : ℝ) c n).map g).length) :
    ((linspace (0 : ℝ) c n).map g).get i = g (c * (i.1 : ℝ) / ((n : ℝ) - 1)) := by
  rcases i with ⟨i, hi⟩
  unfold linspace at hi ⊢
  simp only [List.length_map, List.length_range, List.get_eq_getElem, List.getElem_map,
    List.getElem_range] at hi ⊢
  congr 1
  ring

theorem sorted_map_linspace (c : ℝ) (g : ℝ → ℝ) (n : ℕ)
    (hg : ∀ i j : ℕ, i ≤ j → j < n →
      g (c * (i : ℝ) / ((n : ℝ) - 1)) ≤ g (c * (j : ℝ) / ((n : ℝ) - 1))) :
    ((linspace (0 : ℝ) c n).map g).Sorted (· ≤ ·) := by
  rw [List.Sorted, List.pairwise_iff_get]
  rintro ⟨i, hi⟩ ⟨j, hj⟩ hij
  rw [linspace_map_get, linspace_map_get]
  have hij2 : i < j := hij
  have hjn : j < n := by
    rw [List.length_map, linspace_length] at hj
    exact hj
  exact hg i j hij2.le hjn

theorem half_one_add_mem_unit (s : ℝ) (h1 : -1 ≤ s) (h2 : s ≤ 1) :
    0 ≤ 0.5 * (1 + s) ∧ 0.5 * (1 + s) ≤ 1 := by
  have h05 : (0.5 : ℝ) = 1 / 2 := by norm_num
  rw [h05]
  constructor <;> linarith

theorem get_ramping_amplitude_length (shape : RampShape) (d r : ℚ) :
    (get_ramping_amplitude shape d r).length = ⌊d / r⌋.toNat := by
  cases shape <;>
    simp [get_ramping_amplitude, List.length_map, linspace_length]

theorem ramp_concrete :
    get_ramping_amplitude RampShape.linear 5 1 = [0, 1/4, 1/2, 3/4, 1] := by
  have h5 : ⌊(5 : ℚ) / 1⌋ = 5 := by norm_num
  unfold get_ramping_amplitude
  dsimp only
  rw [h5]
  show linspace (0 : ℝ) 1 5 = _
  rw [linspace_zero_one_eq]
  norm_num [List.range_succ]

/-- C6 (counterexample): the linear ramp at a 5 ms duration and a 1 ms
resolution has floor(5 / 1) = 5 samples, namely 0, 1/4, 1/2, 3/4, 1
(np.linspace includes the endpoint), not the 4 samples 0, 1/4, 1/2, 3/4
given by the claim. -/
theorem ramp_counterexample :
    get_ramping_amplitude RampShape.linear 5 1 ≠ [0, 1/4, 1/2, 3/4] ∧
    get_ramping_amplitude RampShape.linear 5 1 = [0, 1/4, 1/2, 3/4, 1] := by
  refine ⟨?_, ramp_concrete⟩
  rw [ramp_concrete]
  simp

/-- C6 (amended): for every ramp shape (linear, Tukey, custom sinusoidal)
the synthesizer returns an ordered (non-decreasing) sequence of attenuation
fractions in [0, 1] of length floor(ramp duration / sample resolution),
with the resolution chosen by _apply_ramping capping the sample count at
the hardware maximum of 1023; for the linear shape the values are
uniformly spaced from 0 to 1; and the linear ramp at a 5 ms duration and a
1 ms resolution yields the 5 samples 0, 1/4, 1/2, 3/4, 1 (endpoint
included), not the 4 samples of the claim. -/
theorem ramp_spec :
    (∀ (shape : RampShape) (d r : ℚ),
      (get_ramping_amplitude shape d r).length = ⌊d / r⌋.toNat ∧
      (∀ y ∈ get_ramping_amplitude shape d r, 0 ≤ y ∧ y ≤ 1) ∧
      (get_ramping_amplitude shape d r).Sorted (· ≤ ·) ∧
      (get_ramping_amplitude shape d (apply_ramping_resolution d)).length ≤ 1023) ∧
    (∀ (d r : ℚ) (i : ℕ)
        (h1 : i < (get_ramping_amplitude RampShape.linear d r).length)
        (h2 : i + 1 < (get_ramping_amplitude RampShape.linear d r).length),
      (get_ramping_amplitude RampShape.linear d r).get ⟨i + 1, h2⟩ -
        (get_ramping_amplitude RampShape.linear d r).get ⟨i, h1⟩ =
        1 / (((get_ramping_amplitude RampShape.linear d r).length : ℝ) - 1)) ∧
    get_ramping_amplitude RampShape.linear 5 1 = [0, 1/4, 1/2, 3/4, 1] := by
  refine ⟨?_, ?_, ramp_concrete⟩
  · intro shape d r
    refine ⟨get_ramping_amplitude_length shape d r, ?_, ?_, ?_⟩
    · intro y hy
      cases shape with
      | linear =>
        unfold get_ramping_amplitude at hy
        dsimp only at hy
        exact linspace_zero_one_mem _ y hy
      | tukey =>
        unfold get_ramping_amplitude at hy
        dsimp only at hy
        obtain ⟨x, hx, rfl⟩ := List.mem_map.mp hy
        exact half_one_add_mem_unit _ (Real.neg_one_le_cos _) (Real.cos_le_one _)
      | shota =>
        unfold get_ramping_amplitude at hy
        dsimp only at hy
        obtain ⟨x, hx, rfl⟩ := List.mem_map.mp hy
        exact half_one_add_mem_unit _ (Real.neg_one_le_sin _) (Real.sin_le_one _)
    · cases shape with
      | linear =>
        unfold get_ramping_amplitude
        dsimp only
        exact linspace_zero_one_sorted _
      | tukey =>
        unfold get_ramping_amplitude
        dsimp only
        set N := ⌊d / r⌋.toNat with hN
        apply sorted_map_linspace
        intro i j hij hjn
        dsimp only
        rcases eq_or_lt_of_le hij with rfl | hlt
        · exact le_refl _
        have hpi := Real.pi_pos
        have hn2 : 2 ≤ N := by omega
        have hden : (0 : ℝ) < (N : ℝ) - 1 := by
          have h2 : (2 : ℝ) ≤ (N : ℝ) := by exact_mod_cast hn2
          linarith
        have hu_le : (i : ℝ) / ((N : ℝ) - 1) ≤ (j : ℝ) / ((N : ℝ) - 1) := by
          gcongr
        have hu0i : 0 ≤ (i : ℝ) / ((N : ℝ) - 1) := div_nonneg (Nat.cast_nonneg i) hden.le
        have hu1j : (j : ℝ) / ((N : ℝ) - 1) ≤ 1 := by
          rw [div_le_one hden]
          have hc2 : (j : ℝ) + 1 ≤ (N : ℝ) := by exact_mod_cast hjn
          linarith
        have hAi : 2 * Real.pi / 1 * ((1 : ℝ) / 2 * (i : ℝ) / ((N : ℝ) - 1) - 1 / 2) =
            Real.pi * ((i : ℝ) / ((N : ℝ) - 1)) - Real.pi := by ring
        have hAj : 2 * Real.pi / 1 * ((1 : ℝ) / 2 * (j : ℝ) / ((N : ℝ) - 1) - 1 / 2) =
            Real.pi * ((j : ℝ) / ((N : ℝ) - 1)) - Real.pi := by ring
        rw [hAi, hAj]
        have hcos : Real.cos (Real.pi * ((i : ℝ) / ((N : ℝ) - 1)) - Real.pi) ≤
            Real.cos (Real.pi * ((j : ℝ) / ((N : ℝ) - 1)) - Real.pi) := by
          rw [← Real.cos_neg (Real.pi * ((i : ℝ) / ((N : ℝ) - 1)) - Real.pi),
            ← Real.cos_neg (Real.pi * ((j : ℝ) / ((N : ℝ) - 1)) - Real.pi)]
          apply Real.cos_le_cos_of_nonneg_of_le_pi
          · nlinarith
          · nlinarith
          · nlinarith
        linarith
      | shota =>
        unfold get_ramping_amplitude
        dsimp only
        set N := ⌊d / r⌋.toNat with hN
        apply sorted_map_linspace
        intro i j hij hjn
        dsimp only
        rcases eq_or_lt_of_le hij with rfl | hlt
        · exact le_refl _
        have hpi := Real.pi_pos
        have hn2 : 2 ≤ N := by omega
        have hden : (0 : ℝ) < (N : ℝ) - 1 := by
          have h2 : (2 : ℝ) ≤ (N : ℝ) := by exact_mod_cast hn2
          linarith
        have hd0 : d ≠ 0 := by
          intro hd
          rw [hd, zero_div] at hN
          simp at hN
          omega
        have hdR : ((d : ℚ) : ℝ) ≠ 0 := by exact_mod_cast hd0
        have h1000 : ((d : ℚ) : ℝ) / 1000 ≠ 0 := div_ne_zero hdR (by norm_num)
        have hDne : ((N : ℝ) - 1) ≠ 0 := ne_of_gt hden
        have hu_le : (i : ℝ) / ((N : ℝ) - 1) ≤ (j : ℝ) / ((N : ℝ) - 1) := by
          gcongr
        have hu0i : 0 ≤ (i : ℝ) / ((N : ℝ) - 1) := div_nonneg (Nat.cast_nonneg i) hden.le
        have hu1j : (j : ℝ) / ((N : ℝ) - 1) ≤ 1 := by
          rw [div_le_one hden]
          have hc2 : (j : ℝ) + 1 ≤ (N : ℝ) := by exact_mod_cast hjn
          linarith
        have hAi : 2 * Real.pi * (1 / (2 * ((d : ℝ) / 1000))) *
              ((d : ℝ) / 1000 * (i : ℝ) / ((N : ℝ) - 1)) - Real.pi / 2 =
            Real.pi * ((i : ℝ) / ((N : ℝ) - 1)) - Real.pi / 2 := by
          field_simp
          ring
        have hAj : 2 * Real.pi * (1 / (2 * ((d : ℝ) / 1000))) *
              ((d : ℝ) / 1000 * (j : ℝ) / ((N : ℝ) - 1)) - Real.pi / 2 =
            Real.pi * ((j : ℝ) / ((N : ℝ) - 1)) - Real.pi / 2 := by
          field_simp
          ring
        rw [hAi, hAj]
        have hsin : Real.sin (Real.pi * ((i : ℝ) / ((N : ℝ) - 1)) - Real.pi / 2) ≤
            Real.sin (Real.pi * ((j : ℝ) / ((N : ℝ) - 1)) - Real.pi / 2) := by
          apply Real.sin_le_sin_of_le_of_le_pi_div_two
          · nlinarith
          · nlinarith
          · nlinarith
        linarith
    · rw [get_ramping_amplitude_length]
      unfold apply_ramping_resolution
      dsimp only
      split_ifs with h
      · have hd : (0 : ℚ) < d := by
          by_contra hdc
          push_neg at hdc
          have hnp : d / (5 / 1000 : ℚ) ≤ 0 := div_nonpos_iff.mpr (Or.inr ⟨hdc, by norm_num⟩)
          have hfl := Int.floor_le_floor hnp
          rw [Int.floor_zero] at hfl
          omega
        have he : d / (d / 1023) = 1023 := by
          field_simp
        rw [he]
        norm_num
      · push_neg at h
        exact Int.toNat_le.mpr h
  · intro d r i h1 h2
    unfold get_ramping_amplitude at h1 h2 ⊢
    dsimp only at h1 h2 ⊢
    rw [linspace_zero_one_spacing _ i h1 h2, linspace_length]

theorem ramp_spec_witness :
    (1 / 2 : ℝ) ∈ get_ramping_amplitude RampShape.linear 5 1 ∧
    0 ≤ (1 / 2 : ℝ) ∧ (1 / 2 : ℝ) ≤ 1 := by
  have hm : (1 / 2 : ℝ) ∈ get_ramping_amplitude RampShape.linear 5 1 := by
    rw [ramp_concrete]
    simp
  exact ⟨hm, (ramp_spec.1 RampShape.linear 5 1).2.1 (1 / 2) hm⟩

/-- C4 (counterexample): on a calibrated Sequence holding a stored pressure
of 1 MPa, a request of 100 MPa against a 4 MPa ceiling exits with the limit
error, but the observable state is not the state before the call: the
stored pressure has already been reset to 0. -/
theorem press_limit_counterexample :
    (press_set 4 100 sPressLimit).2 = some SeqError.limitExceeded ∧
    (press_set 4 100 sPressLimit).1.press ≠ sPressLimit.press := by
  refine ⟨rfl, ?_⟩
  rw [show (press_set 4 100 sPressLimit).1.press = 0 from rfl,
    show sPressLimit.press = 1 from rfl]
  norm_num

/-- C4 (amended): on a calibrated combination, a validated pressure request
above the configured maximum exits with the limit error before any
conversion is attempted, with the stored global power and stored pressure
already reset to 0 at entry and every other field untouched. -/
theorem press_limit_aborts_before_conversion (maxP p : ℚ) (s : SeqState)
    (hc : s.comboCalibrated = true) (hp : 0 ≤ p) (hgt : maxP < p) :
    press_set maxP p s =
      ({ s with globalPower := 0, press := 0 }, some SeqError.limitExceeded) := by
  unfold press_set
  dsimp only
  rw [if_pos hc, if_pos (validate_value_nonneg hp), if_pos hgt]

theorem press_limit_aborts_witness :
    press_set 4 100 sPressLimit =
      ({ sPressLimit with globalPower := 0, press := 0 }, some SeqError.limitExceeded) :=
  press_limit_aborts_before_conversion 4 100 sPressLimit rfl (by norm_num) (by norm_num)

/-- C2: on a calibrated combination with a positive P2A_a times equalization
factor, a validated in-limit pressure request whose converted amplitude
exceeds 100 succeeds without error, stores amplitude exactly 100, and
stores a back-computed pressure no larger than the requested one. -/
theorem press_saturation (maxP p : ℚ) (s : SeqState)
    (hc : s.comboCalibrated = true)
    (hp : 0 ≤ p) (hmax : p ≤ maxP)
    (heq : 0 < s.conv.P2A_a * s.eqFactor)
    (hraw : 100 < s.conv.P2A_a * (p * 1000000 * s.eqFactor) + s.conv.P2A_b) :
    (press_set maxP p s).2 = none ∧
    (press_set maxP p s).1.ampl = 100 ∧
    (press_set maxP p s).1.press ≤ p := by
  have h1 : (100 - s.conv.P2A_b) / (s.conv.P2A_a * s.eqFactor) < p * 1000000 := by
    rw [div_lt_iff₀ heq]
    ring_nf
    ring_nf at hraw
    linarith
  have key : ((100 - s.conv.P2A_b) / (s.conv.P2A_a * s.eqFactor)) / 1000000 < p := by
    rw [div_lt_iff₀ (by norm_num : (0 : ℚ) < 1000000)]
    exact h1
  unfold press_set
  dsimp only
  rw [if_pos hc, if_pos (validate_value_nonneg hp), if_neg (not_lt.mpr hmax)]
  unfold calc_ampl
  dsimp only
  rw [if_pos hraw]
  unfold calc_press
  dsimp only
  rw [if_neg (ne_of_gt heq)]
  rw [if_neg (not_lt.mpr (le_of_lt (lt_of_lt_of_le key hmax)))]
  unfold seqStep
  dsimp only
  refine ⟨rfl, ?_, ?_⟩
  · rw [calc_volt_ampl, calc_volt_ampl]
  · rw [calc_volt_press, calc_volt_press]
    exact key.le

theorem press_saturation_witness :
    (press_set 3 1 sSaturation).2 = none ∧
    (press_set 3 1 sSaturation).1.ampl = 100 ∧
    (press_set 3 1 sSaturation).1.press ≤ 1 :=
  press_saturation 3 1 sSaturation rfl (by norm_num) (by norm_num)
    (by rw [show sSaturation.conv.P2A_a = 1 from rfl, show sSaturation.eqFactor = 1 from rfl]
        norm_num)
    (by rw [show sSaturation.conv.P2A_a = 1 from rfl, show sSaturation.eqFactor = 1 from rfl,
          show sSaturation.conv.P2A_b = 0 from rfl]
        norm_num)

/-- C7: on a calibrated combination with a nonzero DF2SF_a, setting the bowl
referenced focus to x (which stores the exit plane focus (x - DF2SF_b) /
DF2SF_a) and then setting the exit plane focus to that stored value (which
recomputes the bowl focus as DF2SF_a * f + DF2SF_b) leaves the bowl
referenced focus exactly x, over exact rational arithmetic. -/
theorem focus_round_trip (maxP x : ℚ) (s : SeqState)
    (hc : s.comboCalibrated = true) (ha : s.conv.DF2SF_a ≠ 0)
    (h1 : (focus_wrt_mid_bowl_set maxP x s).2 = none) :
    (focus_wrt_exit_plane_set maxP (focus_wrt_mid_bowl_set maxP x s).1.focusWrtExitPlane
       (focus_wrt_mid_bowl_set maxP x s).1).1.focusWrtMidBowl = x := by
  by_cases hv : validate_value x true true false false = true
  · have hset : focus_wrt_mid_bowl_set maxP x s =
        focus_post_update maxP
          { s with focusWrtExitPlane := (x - s.conv.DF2SF_b) / s.conv.DF2SF_a,
                   chosenFocus := FocusOption.midBowl, focusWrtMidBowl := x } := by
      unfold focus_wrt_mid_bowl_set
      rw [if_pos hv, if_pos ⟨hc, ha⟩]
    rw [hset]
    have hfp := focus_post_update_sameFocus maxP
      { s with focusWrtExitPlane := (x - s.conv.DF2SF_b) / s.conv.DF2SF_a,
               chosenFocus := FocusOption.midBowl, focusWrtMidBowl := x }
    have ht4 : (focus_post_update maxP
        { s with focusWrtExitPlane := (x - s.conv.DF2SF_b) / s.conv.DF2SF_a,
                 chosenFocus := FocusOption.midBowl,
                 focusWrtMidBowl := x }).1.comboCalibrated = true := hfp.2.2.2.trans hc
    by_cases hv2 : validate_value (focus_post_update maxP
        { s with focusWrtExitPlane := (x - s.conv.DF2SF_b) / s.conv.DF2SF_a,
                 chosenFocus := FocusOption.midBowl,
                 focusWrtMidBowl := x }).1.focusWrtExitPlane true true false false = true
    · unfold focus_wrt_exit_plane_set
      rw [if_pos hv2, if_pos ht4]
      refine ((focus_post_update_sameFocus maxP _).2.1).trans ?_
      show _ * _ + _ = x
      rw [hfp.2.2.1, hfp.1]
      show s.conv.DF2SF_a * ((x - s.conv.DF2SF_b) / s.conv.DF2SF_a) + s.conv.DF2SF_b = x
      field_simp
    · unfold focus_wrt_exit_plane_set
      rw [if_neg hv2]
      exact hfp.2.1
  · unfold focus_wrt_mid_bowl_set at h1
    rw [if_neg hv] at h1
    simp at h1

theorem focus_round_trip_witness :
    (focus_wrt_exit_plane_set 3 (focus_wrt_mid_bowl_set 3 5 sRoundTrip).1.focusWrtExitPlane
       (focus_wrt_mid_bowl_set 3 5 sRoundTrip).1).1.focusWrtMidBowl = 5 := by
  have h1 : (focus_wrt_mid_bowl_set 3 5 sRoundTrip).2 = none := by
    unfold focus_wrt_mid_bowl_set focus_post_update calc_eq_factor calc_ampl calc_press
      calc_volt seqStep validate_value
    norm_num [sRoundTrip, baseState, baseConv, eq_poly1, eq_poly2, eq_poly]
  exact focus_round_trip 3 5 sRoundTrip rfl
    (by rw [show sRoundTrip.conv.DF2SF_a = 2 from rfl]; norm_num) h1

end FusDS
